import Mathlib

/-!
Shallow embedding of `dem2ticks.py` (per-player POV extraction from a CS
demo): alive-range extraction (`DemoPOVs.get_player_alive_ranges`), per-tick
frame decoding (`PlayerActionFrame.get_player_action`,
`PlayerInfoFrame.get_player_info`), and round-frame assembly
(`PlayerRoundFrames`, `PlayerPOVs`).

The external telemetry source (`demoparser2.DemoParser`) is modelled as data:
a player's liveliness stream is a list of `TickSample` in ascending tick
order (the rows of `parse_ticks` restricted to one player), the round-end
events are a list of marker ticks, and per-(player, tick) field projection is
a partial function to a raw row (`TickFieldAccessor`): `none` models
`parse_ticks(...)` returning an empty frame. Ticks are `Int` so that the
Python subtractions (`tick - 1`, `end - start`) are exact.
-/

/-- One row of the per-tick liveliness projection for one player:
`(tick, is_alive)` as consumed by the loop in `get_player_alive_ranges`. -/
structure TickSample where
  tick : Int
  is_alive : Bool
deriving DecidableEq

/-- The mutable loop state of `get_player_alive_ranges`: the accumulated
`alive_ranges` list, the open `start_tick` (None ↦ `none`), and
`last_round_end_tick` (initially `0`). -/
structure ExtractState where
  alive_ranges : List (Int × Int)
  start_tick : Option Int
  last_round_end_tick : Int
deriving DecidableEq

namespace DemoPOVs

/-- The round-boundary check at the top of the loop body
(`round_end_ticks = round_end_df[round_end_df.index > last_round_end_tick]`):
if the current tick is past the first marker after `last_round_end_tick`,
close any pending range at that marker (clipped to the boundary, not to the
tick) and advance `last_round_end_tick` to it. -/
def stepBoundary (markers : List Int) (st : ExtractState) (tick : Int) :
    ExtractState :=
  let round_end_ticks := markers.filter (fun m => st.last_round_end_tick < m)
  match round_end_ticks.head? with
  | some m =>
    if m < tick then
      match st.start_tick with
      | some s =>
        { alive_ranges := st.alive_ranges ++ [(s, m)]
          start_tick := none
          last_round_end_tick := m }
      | none => { st with last_round_end_tick := m }
    else st
  | none => st

/-- The liveliness transition at the bottom of the loop body: open a range
when alive with no pending start; close at `tick - 1` when dead with a
pending start. -/
def stepTransition (st1 : ExtractState) (smp : TickSample) : ExtractState :=
  if smp.is_alive then
    match st1.start_tick with
    | none => { st1 with start_tick := some smp.tick }
    | some _ => st1
  else
    match st1.start_tick with
    | some s =>
      { st1 with alive_ranges := st1.alive_ranges ++ [(s, smp.tick - 1)]
                 start_tick := none }
    | none => st1

/-- One iteration of the `for tick, row in player_data.iterrows()` loop of
`get_player_alive_ranges`: the round-boundary check, then the liveliness
transition. -/
def stepSample (markers : List Int) (st : ExtractState) (smp : TickSample) :
    ExtractState :=
  stepTransition (stepBoundary markers st smp.tick) smp

/-- The state after the whole pass over the player's samples, starting from
`alive_ranges = []`, `start_tick = None`, `last_round_end_tick = 0`. -/
def runSamples (samples : List TickSample) (markers : List Int) :
    ExtractState :=
  samples.foldl (stepSample markers) ⟨[], none, 0⟩

/-- Embeds `round_end_df.index[-1] if not round_end_df.empty else
player_data.index[-1]`: the last round-end marker when any exists, else the
last observed tick of the player. (When both lists are empty Python would
raise `IndexError`; that branch is unreachable where this is used, because a
pending start implies at least one sample; the `0` default is arbitrary.) -/
def last_round_end (markers : List Int) (samples : List TickSample) : Int :=
  match markers.getLast? with
  | some m => m
  | none => (samples.map (·.tick)).getLastD 0

/-- The `alive_ranges` list right before the length filter: the loop result,
plus the final range `(start_tick, last_round_end)` if a start is still
open. -/
def alive_ranges_raw (samples : List TickSample) (markers : List Int) :
    List (Int × Int) :=
  let st := runSamples samples markers
  match st.start_tick with
  | some s => st.alive_ranges ++ [(s, last_round_end markers samples)]
  | none => st.alive_ranges

/-- The bound `MAX_LEN = 128 * (55 + 60 + 15 + 15 + 45)` — the sanity bound on a
range's length. -/
def MAX_LEN : Int := 128 * (55 + 60 + 15 + 15 + 45)

/-- Embeds `DemoPOVs.get_player_alive_ranges`, with the telemetry source already
projected to the target player's sample stream and the round-end marker
ticks: the raw ranges filtered by `end - start < MAX_LEN`. -/
def get_player_alive_ranges (samples : List TickSample)
    (markers : List Int) : List (Int × Int) :=
  (alive_ranges_raw samples markers).filter (fun r => r.2 - r.1 < MAX_LEN)

end DemoPOVs

/-- One raw row returned by `parser.parse_ticks(fields, players=[steamid],
ticks=[tick])`, holding every field either decoder reads. Boolean-like
signals are `Bool` (Python `int(bool)` coerces to 0/1), times are exact
rationals standing for the parser's numeric time values. -/
structure TickRow where
  FORWARD : Bool
  LEFT : Bool
  RIGHT : Bool
  BACK : Bool
  team_num : Int
  WALK : Bool
  USE : Bool
  INSPECT : Bool
  usercmd_mouse_dx : Int
  usercmd_mouse_dy : Int
  FIRE : Bool
  RIGHTCLICK : Bool
  RELOAD : Bool
  active_weapon : Int
  old_jump_pressed : Bool
  in_crouch : Bool
  ducked : Bool
  ducking : Bool
  in_duck_jump : Bool
  health : Int
  total_rounds_played : Int
  armor_value : Int
  balance : Int
  player_name : String
  player_steamid : Int
  round_start_time : ℚ
  game_time : ℚ
deriving DecidableEq

/-- The per-(player, tick) single-row query of the telemetry source:
`none` models `parse_ticks(..., players=[steamid], ticks=[tick])` coming
back empty for that combination. -/
def TickFieldAccessor : Type := Int → Int → Option TickRow

/-- Python `int()` on a boolean: 0/1 coercion. -/
def int_of_bool (b : Bool) : Int := if b then 1 else 0

/-- Python `int()` on a numeric value: truncation toward zero. -/
def int_trunc (q : ℚ) : Int := q.num.tdiv q.den

/-- The `ValueError(f"未在tick {tick}找到steamid为{steamid}的玩家数据")`
raised by both decoders, carrying the offending (steamid, tick) pair. -/
structure NotFoundError where
  steamid : Int
  tick : Int
deriving DecidableEq

/-- The `PlayerActionFrame` record: the normalized per-tick control-input snapshot. -/
structure PlayerActionFrame where
  wasd : List Int
  team : Int
  walk : Int
  use : Int
  inspect : Int
  dx : Int
  dy : Int
  attack : Int
  l_attack : Int
  reload : Int
  select : Int
  jump : Int
  crouch : Int
  tick : Int
deriving DecidableEq

/-- Embeds `PlayerActionFrame.get_player_action`: query the source for the
(player, tick) row; raise `NotFoundError` when empty, otherwise build the
frame, with `jump = int(old_jump_pressed or in_duck_jump)` and
`crouch = int(in_crouch or ducked or ducking)`. -/
def PlayerActionFrame.get_player_action (parser : TickFieldAccessor)
    (steamid : Int) (tick : Int) :
    Except NotFoundError PlayerActionFrame :=
  match parser steamid tick with
  | none => .error ⟨steamid, tick⟩
  | some row =>
    .ok
      { wasd := [int_of_bool row.FORWARD, int_of_bool row.LEFT,
                 int_of_bool row.BACK, int_of_bool row.RIGHT]
        team := row.team_num
        walk := int_of_bool row.WALK
        use := int_of_bool row.USE
        inspect := int_of_bool row.INSPECT
        dx := row.usercmd_mouse_dx
        dy := row.usercmd_mouse_dy
        attack := int_of_bool row.FIRE
        l_attack := int_of_bool row.RIGHTCLICK
        reload := int_of_bool row.RELOAD
        select := row.active_weapon
        jump := int_of_bool (row.old_jump_pressed || row.in_duck_jump)
        crouch := int_of_bool (row.in_crouch || row.ducked || row.ducking)
        tick := tick }

/-- The `PlayerInfoFrame` record: the per-tick status snapshot (`pic_path` stays the
`None` placeholder filled by an external renderer). -/
structure PlayerInfoFrame where
  tick : Int
  pic_path : Option String
  hp : Int
  team : Int
  weapon : Int
  round : Int
  time : Int
  armor : Int
  money : Int
  player_name : String
  steamid : Int
deriving DecidableEq

/-- Embeds `PlayerInfoFrame.get_player_info`: query the source for the
(player, tick) row; raise `NotFoundError` when empty, otherwise build the
status frame with `time = int(game_time - round_start_time)`. -/
def PlayerInfoFrame.get_player_info (parser : TickFieldAccessor)
    (steamid : Int) (tick : Int) : Except NotFoundError PlayerInfoFrame :=
  match parser steamid tick with
  | none => .error ⟨steamid, tick⟩
  | some row =>
    .ok
      { tick := tick
        pic_path := none
        hp := row.health
        team := row.team_num
        weapon := row.active_weapon
        round := row.total_rounds_played
        time := int_trunc (row.game_time - row.round_start_time)
        armor := row.armor_value
        money := row.balance
        player_name := row.player_name
        steamid := row.player_steamid }

/-- The `PlayerFrame` record: one tick's pair of status and action frames. -/
structure PlayerFrame where
  tick : Int
  player_info : PlayerInfoFrame
  player_action : PlayerActionFrame
deriving DecidableEq

/-- Embeds `PlayerFrame.__init__`: decode the status frame, then the action frame;
the first `NotFoundError` aborts. -/
def PlayerFrame.build (parser : TickFieldAccessor) (steamid : Int)
    (tick : Int) : Except NotFoundError PlayerFrame := do
  let info ← PlayerInfoFrame.get_player_info parser steamid tick
  let action ← PlayerActionFrame.get_player_action parser steamid tick
  pure ⟨tick, info, action⟩

/-- Embeds `range(start_tick, end_tick + 1)`: the tick list of one alive range,
empty when `end_tick + 1 ≤ start_tick`. -/
def tickRange (start_tick end_tick : Int) : List Int :=
  (List.range (end_tick + 1 - start_tick).toNat).map
    (fun i : ℕ => start_tick + (i : Int))

/-- The body of `PlayerRoundFrames._build_player_frames`: build one
`PlayerFrame` per tick in order, failing fast on the first tick whose data
is missing (the Python loop appends until `PlayerFrame(...)` raises, and the
exception propagates out of the constructor, so no partially built
`PlayerRoundFrames` object survives). -/
def build_player_frames (parser : TickFieldAccessor) (steamid : Int) :
    List Int → Except NotFoundError (List PlayerFrame)
  | [] => .ok []
  | t :: ts => do
    let f ← PlayerFrame.build parser steamid t
    let fs ← build_player_frames parser steamid ts
    pure (f :: fs)

/-- The `PlayerRoundFrames` record: one alive range plus its dense frame sequence. -/
structure PlayerRoundFrames where
  start_tick : Int
  end_tick : Int
  steamid : Int
  player_frames : List PlayerFrame
deriving DecidableEq

/-- Embeds `PlayerRoundFrames.__init__`: run `_build_player_frames` over
`range(start_tick, end_tick + 1)`. -/
def PlayerRoundFrames.build (parser : TickFieldAccessor) (start_tick : Int)
    (end_tick : Int) (steamid : Int) :
    Except NotFoundError PlayerRoundFrames := do
  let frames ← build_player_frames parser steamid (tickRange start_tick end_tick)
  pure ⟨start_tick, end_tick, steamid, frames⟩

/-- Embeds `PlayerPOVs._parse_round_frames`: extract the player's alive ranges and
build one `PlayerRoundFrames` per range, in range order; the first failure
aborts the whole POV. -/
def PlayerPOVs.parse_round_frames (parser : TickFieldAccessor)
    (steamid : Int) (samples : List TickSample) (markers : List Int) :
    Except NotFoundError (List PlayerRoundFrames) :=
  go (DemoPOVs.get_player_alive_ranges samples markers)
where
  /-- the `for start, end in ranges` loop, appending per range. -/
  go : List (Int × Int) → Except NotFoundError (List PlayerRoundFrames)
    | [] => .ok []
    | r :: rs => do
      let rf ← PlayerRoundFrames.build parser r.1 r.2 steamid
      let rest ← go rs
      pure (rf :: rest)

/-! ### Predicates used to state the extractor's invariants -/

/-- Strict range order: the later range starts strictly after both the start
and the end of the earlier one (so ranges are ascending by start tick and,
read as integer intervals `[start, end]`, pairwise disjoint). -/
def RangeLt (r r' : Int × Int) : Prop := r.1 < r'.1 ∧ r.2 < r'.1

/-- Every collected range lies strictly below the bound `b`. -/
def RangesBelow (rs : List (Int × Int)) (b : Int) : Prop :=
  ∀ r ∈ rs, r.1 < b ∧ r.2 < b

/-- Every collected range lies at or below the bound `b`. -/
def RangesBelowLe (rs : List (Int × Int)) (b : Int) : Prop :=
  ∀ r ∈ rs, r.1 ≤ b ∧ r.2 ≤ b

/-- No round-end marker lies strictly inside any of the ranges. -/
def NoMarkerInside (markers : List Int) (rs : List (Int × Int)) : Prop :=
  ∀ r ∈ rs, ∀ m ∈ markers, ¬(r.1 < m ∧ m < r.2)

/-- Loop invariant of `get_player_alive_ranges` relative to a strict lower
bound `lb` on all ticks still to be processed: collected ranges are strictly
ordered and marker-free inside, `last_round_end_tick` and any open
`start_tick` are bounded by the ticks seen so far, and everything collected
lies below any open start. -/
def ExtractInv (markers : List Int) (st : ExtractState) (lb : Int) : Prop :=
  List.Pairwise RangeLt st.alive_ranges ∧
  NoMarkerInside markers st.alive_ranges ∧
  st.last_round_end_tick ≤ lb + 1 ∧
  (∀ s, st.start_tick = some s →
    st.last_round_end_tick ≤ s ∧ s ≤ lb ∧ RangesBelow st.alive_ranges s) ∧
  (st.start_tick = none → RangesBelowLe st.alive_ranges lb)

/-! ### Concrete data used by witnesses and counterexamples -/

/-- The spec's boundary-clipping scenario: the player is alive at every tick
from 100 to 500 inclusive. -/
def clipScenarioSamples : List TickSample :=
  (List.range 401).map (fun i => ⟨100 + (i : Int), true⟩)

/-- A run of `n` consecutive alive samples starting at tick `t0`, used to
evaluate the scenario fold in pieces. -/
def clipChunk (t0 : Int) (n : Nat) : List TickSample :=
  (List.range n).map (fun i => ⟨t0 + (i : Int), true⟩)

/-- A concrete raw row for witness evaluations; its times make
`game_time - round_start_time` equal to `-2` (sampling racing the round
start). -/
def demoRow : TickRow where
  FORWARD := true
  LEFT := false
  RIGHT := true
  BACK := false
  team_num := 2
  WALK := false
  USE := true
  INSPECT := false
  usercmd_mouse_dx := -3
  usercmd_mouse_dy := 7
  FIRE := true
  RIGHTCLICK := false
  RELOAD := false
  active_weapon := 42
  old_jump_pressed := true
  in_duck_jump := false
  in_crouch := false
  ducked := true
  ducking := false
  health := 100
  total_rounds_played := 5
  armor_value := 50
  balance := 3200
  player_name := "alice"
  player_steamid := 7
  round_start_time := 12
  game_time := 10

/-- A telemetry accessor with data for player 7 at ticks 100–102 only. -/
def demoAccessor : TickFieldAccessor := fun steamid tick =>
  if steamid = 7 ∧ 100 ≤ tick ∧ tick ≤ 102 then some demoRow else none

/-- A telemetry accessor for player 7 with a hole at tick 101. -/
def holeyAccessor : TickFieldAccessor := fun steamid tick =>
  if steamid = 7 ∧ (tick = 100 ∨ tick = 102) then some demoRow else none

/-- The action frame decoded from `demoRow` at tick 100. -/
def demoActionFrame : PlayerActionFrame where
  wasd := [1, 0, 0, 1]
  team := 2
  walk := 0
  use := 1
  inspect := 0
  dx := -3
  dy := 7
  attack := 1
  l_attack := 0
  reload := 0
  select := 42
  jump := 1
  crouch := 1
  tick := 100

/-- The status frame decoded from `demoRow` at tick 100; its round-relative
time `int(10 - 12) = -2` is negative. -/
def demoInfoFrame : PlayerInfoFrame where
  tick := 100
  pic_path := none
  hp := 100
  team := 2
  weapon := 42
  round := 5
  time := -2
  armor := 50
  money := 3200
  player_name := "alice"
  steamid := 7

/-! ### Helper lemmas -/

/-- A still-open `start_tick` after the pass implies the player had at least
one sample (the initial state has no open start). -/
theorem start_tick_some_samples_ne_nil {samples : List TickSample}
    {markers : List Int} {s : Int}
    (h : (DemoPOVs.runSamples samples markers).start_tick = some s) :
    samples ≠ [] := by
  intro hnil
  subst hnil
  simp [DemoPOVs.runSamples] at h

/-! ### Claims -/

/-- C2: the claim states every output range of `get_player_alive_ranges` has
`start ≤ end`. The code violates it: with round-end markers at 100 and 200
and the player sampled alive at tick 50, alive at tick 250 and dead at tick
260, only one marker is consumed per sample, so the range opened at 250 is
closed at the stale marker 200, and the malformed range `(250, 200)` (whose
negative length passes the `end - start < MAX_LEN` filter) appears in the
output instead of failing fast. -/
theorem C2_malformed_range_in_output :
    DemoPOVs.get_player_alive_ranges
        [⟨50, true⟩, ⟨250, true⟩, ⟨260, false⟩] [100, 200]
      = [(50, 100), (250, 200)]
    ∧ (200 : Int) < 250 := by
  constructor
  · rfl
  · decide

/-- C1 counterexample: with a single round-end marker at 300 and the player
first sampled (alive) at tick 400, `last_round_end_tick` has advanced to 300
and no marker lies strictly after it, so the claim as stated predicts the
final range ends at the last observed tick 400; the code instead closes it
at the last marker, returning `(400, 300)`, not `(400, 400)`. -/
theorem C1_counterexample :
    DemoPOVs.get_player_alive_ranges [⟨400, true⟩] [300] = [(400, 300)]
    ∧ (DemoPOVs.runSamples [⟨400, true⟩] [300]).last_round_end_tick = 300
    ∧ [(300 : Int)].filter (fun m => (300 : Int) < m) = []
    ∧ (300 : Int) ≠ 400 := by
  refine ⟨rfl, rfl, rfl, by decide⟩

/-- C1 (amended): if `start_tick` is still open after the pass, the final
range is closed at `last_round_end`, which is the last RoundEndMarker
whenever at least one marker exists — regardless of whether it lies after
`last_round_end_tick` — and only when there are no markers at all falls back
to the last observed tick for that player. -/
theorem C1_final_range_close (samples : List TickSample) (markers : List Int)
    (s : Int)
    (h : (DemoPOVs.runSamples samples markers).start_tick = some s) :
    DemoPOVs.alive_ranges_raw samples markers
      = (DemoPOVs.runSamples samples markers).alive_ranges
        ++ [(s, DemoPOVs.last_round_end markers samples)]
    ∧ (∀ m, markers.getLast? = some m →
        DemoPOVs.last_round_end markers samples = m)
    ∧ (markers = [] → ∃ t, (samples.map (·.tick)).getLast? = some t
        ∧ DemoPOVs.last_round_end markers samples = t) := by
  refine ⟨?_, ?_, ?_⟩
  · simp only [DemoPOVs.alive_ranges_raw, h]
  · intro m hm
    unfold DemoPOVs.last_round_end
    rw [hm]
  · intro hm
    subst hm
    have hne : samples ≠ [] := start_tick_some_samples_ne_nil h
    have hmapne : samples.map (·.tick) ≠ [] := by
      simpa using hne
    rcases hx : (samples.map (·.tick)).getLast? with _ | t
    · exact absurd (List.getLast?_eq_none_iff.mp hx) hmapne
    · refine ⟨t, hx, ?_⟩
      unfold DemoPOVs.last_round_end
      simp [List.getLastD_eq_getLast?, hx]

/-- C1 witness: the amended closing rule evaluated on the counterexample
input — one marker at 300, a single alive sample at 400. -/
theorem C1_final_range_close_witness :
    DemoPOVs.alive_ranges_raw [⟨400, true⟩] [300]
      = (DemoPOVs.runSamples [⟨400, true⟩] [300]).alive_ranges
        ++ [(400, DemoPOVs.last_round_end [300] [⟨400, true⟩])]
    ∧ (∀ m, [(300 : Int)].getLast? = some m →
        DemoPOVs.last_round_end [300] [⟨400, true⟩] = m)
    ∧ ([(300 : Int)] = [] → ∃ t,
        ([(⟨400, true⟩ : TickSample)].map (·.tick)).getLast? = some t
        ∧ DemoPOVs.last_round_end [300] [⟨400, true⟩] = t) :=
  C1_final_range_close [⟨400, true⟩] [300] 400 (by decide)

/-- C5 counterexample: with no markers and samples alive at tick 0 then dead
at tick 24321, the pass collects the single range `(0, 24320)` whose length
24320 equals, and therefore does not exceed, the sanity bound
`MAX_LEN = 24320`; the claim says such a range is kept, but the strict
filter `end - start < MAX_LEN` discards it and the output is empty. -/
theorem C5_counterexample :
    DemoPOVs.alive_ranges_raw [⟨0, true⟩, ⟨24321, false⟩] [] = [(0, 24320)]
    ∧ DemoPOVs.get_player_alive_ranges [⟨0, true⟩, ⟨24321, false⟩] [] = []
    ∧ (24320 : Int) - 0 ≤ DemoPOVs.MAX_LEN := by
  refine ⟨rfl, rfl, by decide⟩

/-- C5 (amended): the post-filter discards exactly the ranges whose length
reaches the bound: every returned range satisfies
`end - start < MAX_LEN = 24320` (strictly), every collected range with
`end - start < 24320` is kept, and every collected range with
`24320 ≤ end - start` — including length exactly 24320 — is dropped. -/
theorem C5_length_filter (samples : List TickSample) (markers : List Int) :
    DemoPOVs.MAX_LEN = 24320
    ∧ (∀ r ∈ DemoPOVs.get_player_alive_ranges samples markers,
        r.2 - r.1 < 24320)
    ∧ (∀ r ∈ DemoPOVs.alive_ranges_raw samples markers,
        r.2 - r.1 < 24320 →
        r ∈ DemoPOVs.get_player_alive_ranges samples markers)
    ∧ (∀ r ∈ DemoPOVs.alive_ranges_raw samples markers,
        24320 ≤ r.2 - r.1 →
        r ∉ DemoPOVs.get_player_alive_ranges samples markers) := by
  refine ⟨by decide, ?_, ?_, ?_⟩
  · intro r hr
    have := (List.mem_filter.mp hr).2
    simpa [DemoPOVs.MAX_LEN] using of_decide_eq_true this
  · intro r hr hlen
    exact List.mem_filter.mpr ⟨hr, decide_eq_true (by simpa [DemoPOVs.MAX_LEN] using hlen)⟩
  · intro r _ hlen hmem
    have := (List.mem_filter.mp hmem).2
    have hlt : r.2 - r.1 < DemoPOVs.MAX_LEN := of_decide_eq_true this
    simp [DemoPOVs.MAX_LEN] at hlt
    omega

/-- C5 witness: a collected range of length 999 (below the bound) is kept in
the output, via the keep direction of the filter characterization. -/
theorem C5_length_filter_witness :
    ((0 : Int), (999 : Int)) ∈
      DemoPOVs.get_player_alive_ranges [⟨0, true⟩, ⟨1000, false⟩] [] :=
  (C5_length_filter [⟨0, true⟩, ⟨1000, false⟩] []).2.2.1
    (0, 999) (by decide) (by decide)

/-- C10: invoked on a malformed range with `end_tick < start_tick`, the
assembler's `range(start_tick, end_tick + 1)` loop is vacuous, so the build
raises no error and returns a `PlayerRoundFrames` with an empty frame
sequence — silently, instead of failing fast on the malformed range. -/
theorem C10_malformed_range_empty_build (parser : TickFieldAccessor)
    (steamid start_tick end_tick : Int)
    (h : end_tick < start_tick) :
    PlayerRoundFrames.build parser start_tick end_tick steamid
      = .ok ⟨start_tick, end_tick, steamid, []⟩ := by
  have hnil : tickRange start_tick end_tick = [] := by
    unfold tickRange
    have h0 : (end_tick + 1 - start_tick).toNat = 0 := by omega
    rw [h0]
    rfl
  simp [PlayerRoundFrames.build, hnil, build_player_frames]

/-- C10 witness: the empty build evaluated at the malformed range (5, 3) for
player 7 against an accessor with no data at all. -/
theorem C10_malformed_range_empty_build_witness :
    PlayerRoundFrames.build (fun _ _ => none) 5 3 7 = .ok ⟨5, 3, 7, []⟩ :=
  C10_malformed_range_empty_build (fun _ _ => none) 7 5 3 (by decide)

/-- Reduction of `bind` on a successful `Except` value. -/
theorem except_bind_ok {ε : Type u} {α β : Type v} (a : α)
    (k : α → Except ε β) : (Except.ok a >>= k) = k a := rfl

/-- Reduction of `bind` on a failed `Except` value. -/
theorem except_bind_error {ε : Type u} {α β : Type v} (e : ε)
    (k : α → Except ε β) :
    ((Except.error e : Except ε α) >>= k) = Except.error e := rfl

/-- Membership in `range(start, end + 1)` is exactly `start ≤ t ≤ end`. -/
theorem mem_tickRange {start_tick end_tick t : Int} :
    t ∈ tickRange start_tick end_tick ↔ start_tick ≤ t ∧ t ≤ end_tick := by
  simp only [tickRange, List.mem_map, List.mem_range]
  constructor
  · rintro ⟨i, hi, rfl⟩
    omega
  · intro ⟨h1, h2⟩
    exact ⟨(t - start_tick).toNat, by omega, by omega⟩

/-- Building a `PlayerFrame` succeeds exactly when the source has the row. -/
theorem PlayerFrame.build_ok_iff {parser : TickFieldAccessor}
    {steamid tick : Int} :
    (∃ f, PlayerFrame.build parser steamid tick = .ok f)
      ↔ (parser steamid tick).isSome := by
  cases hrow : parser steamid tick <;>
    simp [PlayerFrame.build, PlayerInfoFrame.get_player_info,
      PlayerActionFrame.get_player_action, hrow,
      except_bind_ok, except_bind_error, Except.map_ok, Except.map_error]

/-- A successfully built `PlayerFrame` carries the requested tick in itself
and in both of its sub-frames. -/
theorem PlayerFrame.build_ticks {parser : TickFieldAccessor}
    {steamid tick : Int} {f : PlayerFrame}
    (h : PlayerFrame.build parser steamid tick = .ok f) :
    f.tick = tick ∧ f.player_info.tick = tick ∧ f.player_action.tick = tick := by
  cases hrow : parser steamid tick with
  | none =>
    simp [PlayerFrame.build, PlayerInfoFrame.get_player_info, hrow,
      except_bind_error, Except.map_error] at h
  | some row =>
    simp [PlayerFrame.build, PlayerInfoFrame.get_player_info,
      PlayerActionFrame.get_player_action, hrow,
      except_bind_ok, Except.map_ok] at h
    subst h
    exact ⟨rfl, rfl, rfl⟩

/-- If every tick of the list has a row, the frame-building loop succeeds,
produces one frame per tick in order, and stamps the tick into each frame
and both sub-frames. -/
theorem build_player_frames_ok (parser : TickFieldAccessor) (steamid : Int) :
    ∀ l : List Int, (∀ t ∈ l, (parser steamid t).isSome) →
    ∃ fs, build_player_frames parser steamid l = .ok fs
      ∧ fs.map (·.tick) = l
      ∧ ∀ f ∈ fs, f.player_info.tick = f.tick ∧ f.player_action.tick = f.tick := by
  intro l
  induction l with
  | nil => exact fun _ => ⟨[], rfl, rfl, by simp⟩
  | cons t ts ih =>
    intro h
    obtain ⟨f, hb⟩ := PlayerFrame.build_ok_iff.mpr (h t (by simp))
    obtain ⟨hft, hfi, hfa⟩ := PlayerFrame.build_ticks hb
    obtain ⟨fs, hfs, hmap, htk⟩ := ih (fun u hu => h u (by simp [hu]))
    refine ⟨f :: fs, ?_, ?_, ?_⟩
    · simp [build_player_frames, hb, hfs, except_bind_ok, Except.map_ok]
    · simp [hmap, hft]
    · intro g hg
      rcases List.mem_cons.mp hg with rfl | hg'
      · exact ⟨hfi.trans hft.symm, hfa.trans hft.symm⟩
      · exact htk g hg'

/-- If some tick of the list has no row, the frame-building loop fails with
the `NotFoundError` of the first such tick. -/
theorem build_player_frames_err (parser : TickFieldAccessor) (steamid : Int) :
    ∀ l : List Int, (∃ t ∈ l, parser steamid t = none) →
    ∃ t ∈ l, parser steamid t = none
      ∧ build_player_frames parser steamid l = .error ⟨steamid, t⟩ := by
  intro l
  induction l with
  | nil => rintro ⟨t, ht, -⟩; cases ht
  | cons t ts ih =>
    intro h
    cases hrow : parser steamid t with
    | none =>
      have hb : PlayerFrame.build parser steamid t = .error ⟨steamid, t⟩ := by
        simp [PlayerFrame.build, PlayerInfoFrame.get_player_info, hrow,
          except_bind_error, Except.map_error]
      exact ⟨t, by simp, hrow,
        by simp [build_player_frames, hb, except_bind_error]⟩
    | some row =>
      obtain ⟨u, hu, hnone⟩ := h
      have hu' : u ∈ ts := by
        rcases List.mem_cons.mp hu with rfl | h'
        · rw [hrow] at hnone; cases hnone
        · exact h'
      obtain ⟨v, hv, hvn, heq⟩ := ih ⟨u, hu', hnone⟩
      obtain ⟨f, hb⟩ := (@PlayerFrame.build_ok_iff parser steamid t).mpr
        (by simp [hrow])
      exact ⟨v, by simp [hv], hvn,
        by simp [build_player_frames, hb, heq, except_bind_ok,
          except_bind_error]⟩

/-- C6: for an alive range with `start ≤ end` whose every tick has a row,
the assembler succeeds and yields a dense sequence: exactly
`end - start + 1` frames, in tick order `start, start+1, …, end`, each
frame's two sub-frames stamped with that same tick. -/
theorem C6_assembler_dense (parser : TickFieldAccessor)
    (steamid start_tick end_tick : Int)
    (hse : start_tick ≤ end_tick)
    (hdata : ∀ t, start_tick ≤ t → t ≤ end_tick → (parser steamid t).isSome) :
    ∃ rf, PlayerRoundFrames.build parser start_tick end_tick steamid = .ok rf
      ∧ rf.start_tick = start_tick ∧ rf.end_tick = end_tick
      ∧ (rf.player_frames.length : Int) = end_tick - start_tick + 1
      ∧ rf.player_frames.map (·.tick) = tickRange start_tick end_tick
      ∧ ∀ f ∈ rf.player_frames,
          f.player_info.tick = f.tick ∧ f.player_action.tick = f.tick := by
  obtain ⟨fs, hfs, hmap, htk⟩ :=
    build_player_frames_ok parser steamid (tickRange start_tick end_tick)
      (fun t ht => hdata t (mem_tickRange.mp ht).1 (mem_tickRange.mp ht).2)
  refine ⟨⟨start_tick, end_tick, steamid, fs⟩, ?_, rfl, rfl, ?_, hmap, htk⟩
  · simp [PlayerRoundFrames.build, hfs, except_bind_ok, Except.map_ok]
  · have h1 : fs.length = (tickRange start_tick end_tick).length := by
      rw [← hmap, List.length_map]
    have h2 : (tickRange start_tick end_tick).length
        = (end_tick + 1 - start_tick).toNat := by
      unfold tickRange
      rw [List.length_map, List.length_range]
    rw [h1, h2]
    omega

/-- C6 witness: the assembler on range (100, 102) for player 7 against the
accessor that has rows exactly at ticks 100–102. -/
theorem C6_assembler_dense_witness :
    ∃ rf, PlayerRoundFrames.build demoAccessor 100 102 7 = .ok rf
      ∧ rf.start_tick = 100 ∧ rf.end_tick = 102
      ∧ (rf.player_frames.length : Int) = 102 - 100 + 1
      ∧ rf.player_frames.map (·.tick) = tickRange 100 102
      ∧ ∀ f ∈ rf.player_frames,
          f.player_info.tick = f.tick ∧ f.player_action.tick = f.tick :=
  C6_assembler_dense demoAccessor 7 100 102 (by decide)
    (fun t h1 h2 => by simp [demoAccessor, h1, h2])

/-- C7: both decoders fail exactly when the source has no row for the
(player, tick) pair, every failure carries exactly that pair, and a missing
row anywhere inside a range makes the whole `PlayerRoundFrames` build return
that error (so no partially populated `PlayerRoundFrames` is produced). -/
theorem C7_notfound_error (parser : TickFieldAccessor)
    (steamid tick start_tick end_tick : Int) :
    (PlayerActionFrame.get_player_action parser steamid tick
        = .error ⟨steamid, tick⟩ ↔ parser steamid tick = none)
    ∧ (∀ err, PlayerActionFrame.get_player_action parser steamid tick
        = .error err → err = ⟨steamid, tick⟩ ∧ parser steamid tick = none)
    ∧ (PlayerInfoFrame.get_player_info parser steamid tick
        = .error ⟨steamid, tick⟩ ↔ parser steamid tick = none)
    ∧ (∀ err, PlayerInfoFrame.get_player_info parser steamid tick
        = .error err → err = ⟨steamid, tick⟩ ∧ parser steamid tick = none)
    ∧ ((∃ t ∈ tickRange start_tick end_tick, parser steamid t = none) →
        ∃ t ∈ tickRange start_tick end_tick, parser steamid t = none
          ∧ PlayerRoundFrames.build parser start_tick end_tick steamid
              = .error ⟨steamid, t⟩) := by
  refine ⟨?_, ?_, ?_, ?_, ?_⟩
  · cases hrow : parser steamid tick <;>
      simp [PlayerActionFrame.get_player_action, hrow]
  · intro err herr
    cases hrow : parser steamid tick <;>
      simp [PlayerActionFrame.get_player_action, hrow] at herr
    simp [herr, hrow]
  · cases hrow : parser steamid tick <;>
      simp [PlayerInfoFrame.get_player_info, hrow]
  · intro err herr
    cases hrow : parser steamid tick <;>
      simp [PlayerInfoFrame.get_player_info, hrow] at herr
    simp [herr, hrow]
  · intro h
    obtain ⟨t, ht, htn, heq⟩ :=
      build_player_frames_err parser steamid (tickRange start_tick end_tick) h
    exact ⟨t, ht, htn,
      by simp [PlayerRoundFrames.build, heq, except_bind_error,
        Except.map_error]⟩

/-- C7 witness: against the accessor with a hole at tick 101, the build of
range (100, 102) for player 7 fails with the error naming tick 101. -/
theorem C7_notfound_error_witness :
    ∃ t ∈ tickRange 100 102, holeyAccessor 7 t = none
      ∧ PlayerRoundFrames.build holeyAccessor 100 102 7
          = .error ⟨7, t⟩ :=
  (C7_notfound_error holeyAccessor 7 0 100 102).2.2.2.2
    ⟨101, by decide, by decide⟩

/-- With no alive sample and no open start, the pass never opens nor closes
a range: only `last_round_end_tick` can move. -/
theorem foldl_no_alive (markers : List Int) :
    ∀ (samples : List TickSample) (rs : List (Int × Int)) (b : Int),
    (∀ smp ∈ samples, smp.is_alive = false) →
    ∃ b', samples.foldl (DemoPOVs.stepSample markers) ⟨rs, none, b⟩
      = ⟨rs, none, b'⟩ := by
  intro samples
  induction samples with
  | nil => exact fun rs b _ => ⟨b, rfl⟩
  | cons smp rest ih =>
    intro rs b hall
    have hdead : smp.is_alive = false := hall smp (by simp)
    have hstep : ∃ b1, DemoPOVs.stepSample markers ⟨rs, none, b⟩ smp
        = ⟨rs, none, b1⟩ := by
      rcases h1 : (markers.filter (fun m => b < m)).head? with _ | m
      · exact ⟨b, by simp [DemoPOVs.stepSample, DemoPOVs.stepBoundary,
          DemoPOVs.stepTransition, hdead, h1]⟩
      · by_cases h2 : m < smp.tick
        · exact ⟨m, by simp [DemoPOVs.stepSample, DemoPOVs.stepBoundary,
            DemoPOVs.stepTransition, hdead, h1, h2]⟩
        · exact ⟨b, by simp [DemoPOVs.stepSample, DemoPOVs.stepBoundary,
            DemoPOVs.stepTransition, hdead, h1, h2]⟩
    obtain ⟨b1, hstep⟩ := hstep
    rw [List.foldl_cons, hstep]
    exact ih rs b1 (fun u hu => hall u (by simp [hu]))

/-- C8: a player never alive in the observed data gets an empty range set
from the extractor and an `ok` empty `RoundFrames` sequence from the POV
builder — no error in either. -/
theorem C8_never_alive (parser : TickFieldAccessor) (steamid : Int)
    (samples : List TickSample) (markers : List Int)
    (h : ∀ smp ∈ samples, smp.is_alive = false) :
    DemoPOVs.get_player_alive_ranges samples markers = []
    ∧ PlayerPOVs.parse_round_frames parser steamid samples markers
        = .ok [] := by
  obtain ⟨b', hb⟩ := foldl_no_alive markers samples [] 0 h
  have hraw : DemoPOVs.alive_ranges_raw samples markers = [] := by
    simp [DemoPOVs.alive_ranges_raw, DemoPOVs.runSamples, hb]
  have hget : DemoPOVs.get_player_alive_ranges samples markers = [] := by
    simp [DemoPOVs.get_player_alive_ranges, hraw]
  refine ⟨hget, ?_⟩
  rw [PlayerPOVs.parse_round_frames, hget]
  rfl

/-- C8 witness: player 3 sampled twice, dead both times, one marker. -/
theorem C8_never_alive_witness :
    DemoPOVs.get_player_alive_ranges [⟨10, false⟩, ⟨20, false⟩] [50] = []
    ∧ PlayerPOVs.parse_round_frames (fun _ _ => none) 3
        [⟨10, false⟩, ⟨20, false⟩] [50] = .ok [] :=
  C8_never_alive (fun _ _ => none) 3 [⟨10, false⟩, ⟨20, false⟩] [50]
    (by decide)

/-- The status decoder on `demoAccessor` at (7, 100) yields exactly
`demoInfoFrame`, whose round-relative time is the negative truncation
`int(10 - 12) = -2`. -/
theorem demoInfoFrame_decode :
    PlayerInfoFrame.get_player_info demoAccessor 7 100
      = .ok demoInfoFrame := by
  have hrow : demoAccessor 7 100 = some demoRow := rfl
  have htr : int_trunc ((10 : ℚ) - 12) = -2 := by
    rw [int_trunc, (by norm_num : ((10 : ℚ) - 12) = ((-2 : ℤ) : ℚ)),
      Rat.num_intCast, Rat.den_intCast]
    decide
  simp [PlayerInfoFrame.get_player_info, hrow, demoInfoFrame, demoRow, htr]

/-- C9: for every successfully decoded frame the derived fields follow their
stated definitions — `jump` is the 0/1 coercion of
`old_jump_pressed OR in_duck_jump`, `crouch` of
`in_crouch OR ducked OR ducking`, and the round-relative `time` is the
integer truncation of `game_time - round_start_time` — and the truncation
can come out negative and is left uncorrected (witnessed by a decoded frame
with `time = -1`). -/
theorem C9_derived_fields :
    (∀ (parser : TickFieldAccessor) (steamid tick : Int) (row : TickRow)
        (f : PlayerActionFrame),
      parser steamid tick = some row →
      PlayerActionFrame.get_player_action parser steamid tick = .ok f →
      f.jump = int_of_bool (row.old_jump_pressed || row.in_duck_jump)
        ∧ f.crouch = int_of_bool (row.in_crouch || row.ducked || row.ducking))
    ∧ (∀ (parser : TickFieldAccessor) (steamid tick : Int) (row : TickRow)
        (g : PlayerInfoFrame),
      parser steamid tick = some row →
      PlayerInfoFrame.get_player_info parser steamid tick = .ok g →
      g.time = int_trunc (row.game_time - row.round_start_time))
    ∧ (∃ g : PlayerInfoFrame,
        PlayerInfoFrame.get_player_info demoAccessor 7 100 = .ok g
        ∧ g.time < 0) := by
  refine ⟨?_, ?_, ?_⟩
  · intro parser steamid tick row f hrow hok
    simp [PlayerActionFrame.get_player_action, hrow] at hok
    subst hok
    exact ⟨rfl, rfl⟩
  · intro parser steamid tick row g hrow hok
    simp [PlayerInfoFrame.get_player_info, hrow] at hok
    subst hok
    rfl
  · exact ⟨demoInfoFrame, demoInfoFrame_decode, by decide⟩

/-- C9 witness: the derived fields of the frames decoded from `demoRow` at
tick 100 for player 7. -/
theorem C9_derived_fields_witness :
    (demoActionFrame.jump
        = int_of_bool (demoRow.old_jump_pressed || demoRow.in_duck_jump)
      ∧ demoActionFrame.crouch
        = int_of_bool (demoRow.in_crouch || demoRow.ducked || demoRow.ducking))
    ∧ demoInfoFrame.time
        = int_trunc (demoRow.game_time - demoRow.round_start_time) :=
  ⟨C9_derived_fields.1 demoAccessor 7 100 demoRow demoActionFrame rfl rfl,
   C9_derived_fields.2.1 demoAccessor 7 100 demoRow demoInfoFrame rfl
     demoInfoFrame_decode⟩

set_option maxRecDepth 8000 in
/-- C3: when the current sample's tick is past the next round-end marker
after `last_round_end_tick` and a start is open, the step closes the range
at the marker tick itself (inclusive) — not at `tick - 1` — and advances
`last_round_end_tick` to the marker; in the spec scenario (alive every tick
from 100 to 500, marker at 300) the first output range is `(100, 300)` and
the continuing alive state opens a new range starting at tick 301. -/
theorem C3_boundary_clip (markers : List Int) (st : ExtractState)
    (smp : TickSample) (start_tick m : Int)
    (hp : st.start_tick = some start_tick)
    (hm : (markers.filter
        (fun x => st.last_round_end_tick < x)).head? = some m)
    (ht : m < smp.tick) :
    (DemoPOVs.stepSample markers st smp).alive_ranges
        = st.alive_ranges ++ [(start_tick, m)]
    ∧ (DemoPOVs.stepSample markers st smp).last_round_end_tick = m
    ∧ DemoPOVs.get_player_alive_ranges clipScenarioSamples [300]
        = [(100, 300), (301, 300)] := by
  obtain ⟨rs, p, b⟩ := st
  cases hp
  refine ⟨?_, ?_, ?_⟩
  · rcases ha : smp.is_alive <;>
      simp [DemoPOVs.stepSample, DemoPOVs.stepBoundary,
        DemoPOVs.stepTransition, hm, ht, ha]
  · rcases ha : smp.is_alive <;>
      simp [DemoPOVs.stepSample, DemoPOVs.stepBoundary,
        DemoPOVs.stepTransition, hm, ht, ha]
  · have hsplit : clipScenarioSamples
        = clipChunk 100 101 ++ (clipChunk 201 100
          ++ (clipChunk 301 100 ++ clipChunk 401 100)) := by decide
    have e1 : List.foldl (DemoPOVs.stepSample [300]) ⟨[], none, 0⟩
        (clipChunk 100 101) = ⟨[], some 100, 0⟩ := by decide
    have e2 : List.foldl (DemoPOVs.stepSample [300]) ⟨[], some 100, 0⟩
        (clipChunk 201 100) = ⟨[], some 100, 0⟩ := by decide
    have e3 : List.foldl (DemoPOVs.stepSample [300]) ⟨[], some 100, 0⟩
        (clipChunk 301 100) = ⟨[(100, 300)], some 301, 300⟩ := by decide
    have e4 : List.foldl (DemoPOVs.stepSample [300])
        ⟨[(100, 300)], some 301, 300⟩ (clipChunk 401 100)
        = ⟨[(100, 300)], some 301, 300⟩ := by decide
    have hrun : DemoPOVs.runSamples clipScenarioSamples [300]
        = ⟨[(100, 300)], some 301, 300⟩ := by
      rw [DemoPOVs.runSamples, hsplit, List.foldl_append, List.foldl_append,
        List.foldl_append, e1, e2, e3, e4]
    simp only [DemoPOVs.get_player_alive_ranges, DemoPOVs.alive_ranges_raw,
      hrun]
    rfl

/-- C3 witness: the step at the state open since tick 100, marker 300,
sample tick 301 — the range is closed as `(100, 300)`. -/
theorem C3_boundary_clip_witness :
    (DemoPOVs.stepSample [300] ⟨[], some 100, 0⟩ ⟨301, true⟩).alive_ranges
        = [] ++ [(100, 300)]
    ∧ (DemoPOVs.stepSample [300] ⟨[], some 100, 0⟩
        ⟨301, true⟩).last_round_end_tick = 300
    ∧ DemoPOVs.get_player_alive_ranges clipScenarioSamples [300]
        = [(100, 300), (301, 300)] :=
  C3_boundary_clip [300] ⟨[], some 100, 0⟩ ⟨301, true⟩ 100 300 rfl rfl
    (by decide)

/-- Appending a range that starts above everything collected preserves the
strict range order. -/
theorem pairwise_append_ranges {rs : List (Int × Int)} {x : Int × Int}
    (hpw : List.Pairwise RangeLt rs)
    (hx : ∀ r ∈ rs, r.1 < x.1 ∧ r.2 < x.1) :
    List.Pairwise RangeLt (rs ++ [x]) := by
  rw [List.pairwise_append]
  refine ⟨hpw, List.pairwise_singleton _ _, ?_⟩
  intro r hr y hy
  rw [List.mem_singleton] at hy
  subst hy
  exact hx r hr

/-- Appending a marker-free range preserves `NoMarkerInside`. -/
theorem noMarkerInside_append {markers : List Int} {rs : List (Int × Int)}
    {x : Int × Int} (h1 : NoMarkerInside markers rs)
    (h2 : ∀ m ∈ markers, ¬(x.1 < m ∧ m < x.2)) :
    NoMarkerInside markers (rs ++ [x]) := by
  intro r hr m hm
  rcases List.mem_append.mp hr with h | h
  · exact h1 r h m hm
  · rw [List.mem_singleton] at h
    subst h
    exact h2 m hm

/-- On a strictly ascending list, the head of the `(b < ·)` filter — the
marker the loop compares against — is the minimum element above `b`. -/
theorem head_filter_sorted_min :
    ∀ {l : List Int}, l.Pairwise (· < ·) →
    ∀ {b m : Int}, (l.filter (fun x => b < x)).head? = some m →
    b < m ∧ m ∈ l ∧ ∀ x ∈ l, b < x → m ≤ x := by
  intro l
  induction l with
  | nil => intro _ b m h; simp at h
  | cons c tl ih =>
    intro hl b m h
    rw [List.filter_cons] at h
    obtain ⟨hhead, htl⟩ := List.pairwise_cons.mp hl
    by_cases hc : b < c
    · rw [if_pos (decide_eq_true hc), List.head?_cons,
        Option.some.injEq] at h
      subst h
      refine ⟨hc, by simp, ?_⟩
      intro x hx _
      rcases List.mem_cons.mp hx with rfl | hx'
      · exact le_refl _
      · exact le_of_lt (hhead x hx')
    · rw [if_neg (by simp [hc])] at h
      obtain ⟨hbm, hmem, hmin⟩ := ih htl h
      refine ⟨hbm, by simp [hmem], ?_⟩
      intro x hx hbx
      rcases List.mem_cons.mp hx with rfl | hx'
      · exact absurd hbx hc
      · exact hmin x hx' hbx

/-- The liveliness transition preserves the extractor invariant, given that
while a start is open no marker sits between `last_round_end_tick` and the
current tick (which is what the boundary check just established). -/
theorem stepTransition_inv (markers : List Int) (rs : List (Int × Int))
    (p : Option Int) (b lb : Int) (smp : TickSample)
    (hpw : List.Pairwise RangeLt rs)
    (hnmi : NoMarkerInside markers rs)
    (hlbb : b ≤ lb + 1)
    (hpend : ∀ s, p = some s → b ≤ s ∧ s ≤ lb ∧ RangesBelow rs s)
    (hnone : p = none → RangesBelowLe rs lb)
    (ht : lb < smp.tick)
    (hnext : ∀ s, p = some s → ∀ x ∈ markers, b < x → smp.tick ≤ x) :
    ExtractInv markers (DemoPOVs.stepTransition ⟨rs, p, b⟩ smp) smp.tick := by
  rcases ha : smp.is_alive
  · rcases p with _ | s
    · have he : DemoPOVs.stepTransition ⟨rs, none, b⟩ smp = ⟨rs, none, b⟩ := by
        simp [DemoPOVs.stepTransition, ha]
      rw [he]
      unfold ExtractInv
      dsimp only
      have hR := hnone rfl
      refine ⟨hpw, hnmi, by omega, by simp, ?_⟩
      intro _ r hr
      have h1 := (hR r hr).1
      have h2 := (hR r hr).2
      exact ⟨by omega, by omega⟩
    · obtain ⟨hbs, hslb, hbelow⟩ := hpend s rfl
      have he : DemoPOVs.stepTransition ⟨rs, some s, b⟩ smp
          = ⟨rs ++ [(s, smp.tick - 1)], none, b⟩ := by
        simp [DemoPOVs.stepTransition, ha]
      rw [he]
      unfold ExtractInv
      dsimp only
      refine ⟨pairwise_append_ranges hpw hbelow, ?_, by omega, by simp, ?_⟩
      · refine noMarkerInside_append hnmi ?_
        intro x hx hcontra
        obtain ⟨h1, h2⟩ := hcontra
        have hbx : b < x := by omega
        have := hnext s rfl x hx hbx
        omega
      · intro _ r hr
        rcases List.mem_append.mp hr with h | h
        · have h1 := (hbelow r h).1
          have h2 := (hbelow r h).2
          exact ⟨by omega, by omega⟩
        · rw [List.mem_singleton] at h
          subst h
          exact ⟨by omega, by omega⟩
  · rcases p with _ | s
    · have he : DemoPOVs.stepTransition ⟨rs, none, b⟩ smp
          = ⟨rs, some smp.tick, b⟩ := by
        simp [DemoPOVs.stepTransition, ha]
      rw [he]
      unfold ExtractInv
      dsimp only
      have hR := hnone rfl
      refine ⟨hpw, hnmi, by omega, ?_, by simp⟩
      intro s' hs'
      rw [Option.some.injEq] at hs'
      subst hs'
      refine ⟨by omega, le_refl _, ?_⟩
      intro r hr
      have h1 := (hR r hr).1
      have h2 := (hR r hr).2
      exact ⟨by omega, by omega⟩
    · have he : DemoPOVs.stepTransition ⟨rs, some s, b⟩ smp
          = ⟨rs, some s, b⟩ := by
        simp [DemoPOVs.stepTransition, ha]
      rw [he]
      unfold ExtractInv
      dsimp only
      obtain ⟨hbs, hslb, hbelow⟩ := hpend s rfl
      refine ⟨hpw, hnmi, by omega, ?_, by simp⟩
      intro s' hs'
      rw [Option.some.injEq] at hs'
      subst hs'
      exact ⟨hbs, by omega, hbelow⟩

/-- One full loop iteration preserves the extractor invariant, for sorted
markers and a sample tick above everything processed so far. -/
theorem extractInv_step (markers : List Int)
    (hM : markers.Pairwise (· < ·)) {st : ExtractState} {lb : Int}
    (smp : TickSample) (hinv : ExtractInv markers st lb)
    (ht : lb < smp.tick) :
    ExtractInv markers (DemoPOVs.stepSample markers st smp) smp.tick := by
  obtain ⟨rs, p, b⟩ := st
  unfold ExtractInv at hinv
  dsimp only at hinv
  obtain ⟨hpw, hnmi, hlbb, hpend, hnone⟩ := hinv
  rw [DemoPOVs.stepSample]
  rcases hhd : (markers.filter (fun x => b < x)).head? with _ | m
  · have hb1 : DemoPOVs.stepBoundary markers ⟨rs, p, b⟩ smp.tick
        = ⟨rs, p, b⟩ := by
      simp [DemoPOVs.stepBoundary, hhd]
    rw [hb1]
    refine stepTransition_inv markers rs p b lb smp hpw hnmi hlbb hpend hnone
      ht ?_
    intro s _ x hx hbx
    have hmem : x ∈ markers.filter (fun y => b < y) :=
      List.mem_filter.mpr ⟨hx, by simpa using hbx⟩
    rw [List.head?_eq_none_iff.mp hhd] at hmem
    cases hmem
  · obtain ⟨hbm, hmmem, hmin⟩ := head_filter_sorted_min hM hhd
    by_cases hmt : m < smp.tick
    · rcases p with _ | s
      · have hb1 : DemoPOVs.stepBoundary markers ⟨rs, none, b⟩ smp.tick
            = ⟨rs, none, m⟩ := by
          simp [DemoPOVs.stepBoundary, hhd, hmt]
        rw [hb1]
        refine stepTransition_inv markers rs none m (smp.tick - 1) smp hpw
          hnmi (by omega) (by simp) ?_ (by omega) (by simp)
        intro _ r hr
        have h1 := (hnone rfl r hr).1
        have h2 := (hnone rfl r hr).2
        exact ⟨by omega, by omega⟩
      · obtain ⟨hbs, hslb, hbelow⟩ := hpend s rfl
        have hb1 : DemoPOVs.stepBoundary markers ⟨rs, some s, b⟩ smp.tick
            = ⟨rs ++ [(s, m)], none, m⟩ := by
          simp [DemoPOVs.stepBoundary, hhd, hmt]
        rw [hb1]
        refine stepTransition_inv markers (rs ++ [(s, m)]) none m
          (smp.tick - 1) smp (pairwise_append_ranges hpw hbelow) ?_
          (by omega) (by simp) ?_ (by omega) (by simp)
        · refine noMarkerInside_append hnmi ?_
          intro x hx hcontra
          obtain ⟨h1, h2⟩ := hcontra
          have := hmin x hx (by omega)
          omega
        · intro _ r hr
          rcases List.mem_append.mp hr with h | h
          · have h1 := (hbelow r h).1
            have h2 := (hbelow r h).2
            exact ⟨by omega, by omega⟩
          · rw [List.mem_singleton] at h
            subst h
            exact ⟨by omega, by omega⟩
    · have hb1 : DemoPOVs.stepBoundary markers ⟨rs, p, b⟩ smp.tick
          = ⟨rs, p, b⟩ := by
        simp [DemoPOVs.stepBoundary, hhd, hmt]
      rw [hb1]
      refine stepTransition_inv markers rs p b lb smp hpw hnmi hlbb hpend
        hnone ht ?_
      intro s _ x hx hbx
      have := hmin x hx hbx
      omega

/-- The whole pass preserves the extractor invariant along a strictly
ascending sample stream. -/
theorem extractInv_foldl (markers : List Int)
    (hM : markers.Pairwise (· < ·)) :
    ∀ (samples : List TickSample) (st : ExtractState) (lb : Int),
    ExtractInv markers st lb →
    List.Chain (· < ·) lb (samples.map (·.tick)) →
    ∃ lb', ExtractInv markers
      (samples.foldl (DemoPOVs.stepSample markers) st) lb' := by
  intro samples
  induction samples with
  | nil => exact fun st lb h _ => ⟨lb, h⟩
  | cons smp rest ih =>
    intro st lb hinv hch
    rw [List.map_cons, List.chain_cons] at hch
    obtain ⟨h1, h2⟩ := hch
    rw [List.foldl_cons]
    exact ih (DemoPOVs.stepSample markers st smp) smp.tick
      (extractInv_step markers hM smp hinv h1) h2

/-- C4 counterexample: markers 100, 200, 300, player first sampled (alive)
at tick 150. The pass advances past marker 100 only, the still-open range is
closed by the fallback at the last marker 300, and the output range
`(150, 300)` has the marker 200 strictly inside `(start, end)` — the claim
that no marker lies strictly inside any returned range is false. -/
theorem C4_counterexample :
    DemoPOVs.get_player_alive_ranges [⟨150, true⟩] [100, 200, 300]
      = [(150, 300)]
    ∧ (200 : Int) ∈ [(100 : Int), 200, 300]
    ∧ (150 : Int) < 200 ∧ (200 : Int) < 300 := by
  refine ⟨rfl, by decide, by decide, by decide⟩

/-- C4 (amended): for strictly ascending, nonnegative sample ticks and
strictly ascending markers, the returned ranges are strictly ordered —
ascending by start tick, with every later range starting strictly after the
earlier range's end, hence pairwise non-overlapping — and no marker lies
strictly inside any range closed during the pass; only the final fallback
range (appended when the player is still alive at the end of the data) can
straddle a marker. -/
theorem C4_ranges_ordered (samples : List TickSample) (markers : List Int)
    (hM : markers.Pairwise (· < ·))
    (hS : List.Chain (· < ·) (-1) (samples.map (·.tick))) :
    List.Pairwise RangeLt (DemoPOVs.get_player_alive_ranges samples markers)
    ∧ ∀ r ∈ (DemoPOVs.runSamples samples markers).alive_ranges,
        ∀ m ∈ markers, ¬(r.1 < m ∧ m < r.2) := by
  have hinit : ExtractInv markers ⟨[], none, 0⟩ (-1) := by
    unfold ExtractInv
    dsimp only
    refine ⟨List.Pairwise.nil, ?_, by omega, ?_, ?_⟩
    · intro r hr; cases hr
    · intro s hs; cases hs
    · intro _ r hr; cases hr
  obtain ⟨lb', hinv⟩ :=
    extractInv_foldl markers hM samples ⟨[], none, 0⟩ (-1) hinit hS
  obtain ⟨hpw, hnmi, _, hpend, _⟩ := hinv
  constructor
  · have hraw : List.Pairwise RangeLt
        (DemoPOVs.alive_ranges_raw samples markers) := by
      rw [DemoPOVs.alive_ranges_raw]
      rcases hp : (DemoPOVs.runSamples samples markers).start_tick
        with _ | s
      · simp only [hp]
        exact hpw
      · simp only [hp]
        refine pairwise_append_ranges hpw ?_
        intro r hr
        exact (hpend s hp).2.2 r hr
    exact List.Pairwise.sublist (List.filter_sublist _) hraw
  · exact hnmi

/-- C4 witness: the amended ordering facts evaluated on a concrete match —
marker at 100, samples alive at 50, dead at 120, alive again at 130. -/
theorem C4_ranges_ordered_witness :
    List.Pairwise RangeLt (DemoPOVs.get_player_alive_ranges
      [⟨50, true⟩, ⟨120, false⟩, ⟨130, true⟩] [100])
    ∧ ∀ r ∈ (DemoPOVs.runSamples
        [⟨50, true⟩, ⟨120, false⟩, ⟨130, true⟩] [100]).alive_ranges,
        ∀ m ∈ [(100 : Int)], ¬(r.1 < m ∧ m < r.2) :=
  C4_ranges_ordered [⟨50, true⟩, ⟨120, false⟩, ⟨130, true⟩] [100]
    (by decide) (by norm_num [List.chain_cons])
